import Mathlib

/-!
Verification development for the NebenkostenRetter server (`server.js`).

The server orchestrates an asynchronous document-analysis pipeline:
uploaded billing statements are preprocessed (`buildContentFromFiles`,
`compressImage`), analyzed by an external model with bounded retry
(`runAnalysis`, `runAnalysisWithRetry`), and driven through a per-session
state machine kept in three in-memory maps (`pendingFiles`,
`activeAnalyses`, `completedResults`) by `startBackgroundAnalysis`,
the polling endpoint `/api/result/:sessionId`, and `autoRefund`.

This file shallowly embeds those functions.  JavaScript `Map`/`Set`
values are embedded as association lists / lists with the exact
operational behaviour of `Map.get/set/delete` and `Set.has/add/delete`
(keys are unique because every insertion goes through these operations).
JavaScript strings are embedded as Lean `String` (a JS character is a
Lean `Char`; all string constants involved are plain BMP text, where the
two notions agree).  Asynchronous execution follows the event-loop
model: code between two `await`s of an external call runs atomically;
every external call is a suspension point at which other tasks can
observe the shared maps.  External collaborators (Stripe, the model API,
pdf-parse, sharp, fs-backed analytics) are oracles passed as explicit
arguments; the analytics event log (`events.json`) and the set of
issued Stripe refund-creation calls are carried in the state so that
"refund attempted" and "event recorded" are observable.
-/

/-! ## Association-list embedding of JavaScript `Map` and `Set` -/

/-- `Map.get`: first entry with the given key (keys are unique in a JS map). -/
def mapGet {α : Type} (l : List (String × α)) (k : String) : Option α :=
  match l with
  | [] => none
  | (k', v) :: t => if k' = k then some v else mapGet t k

/-- `Map.set`: replace the value in place if the key exists, else append. -/
def mapSet {α : Type} (l : List (String × α)) (k : String) (v : α) :
    List (String × α) :=
  match l with
  | [] => [(k, v)]
  | (k', v') :: t => if k' = k then (k, v) :: t else (k', v') :: mapSet t k v

/-- `Map.delete`: remove the entry with the given key. -/
def mapDel {α : Type} (l : List (String × α)) (k : String) :
    List (String × α) :=
  match l with
  | [] => []
  | (k', v') :: t => if k' = k then mapDel t k else (k', v') :: mapDel t k

/-- `Set.add`: append if absent (a JS set never holds duplicates). -/
def setAdd (l : List String) (k : String) : List String :=
  if k ∈ l then l else l ++ [k]

/-- `Set.delete`: remove the element. -/
def setDel (l : List String) (k : String) : List String :=
  match l with
  | [] => []
  | k' :: t => if k' = k then setDel t k else k' :: setDel t k

theorem mapGet_set_self {α : Type} (l : List (String × α)) (k : String) (v : α) :
    mapGet (mapSet l k v) k = some v := by
  induction l with
  | nil => simp [mapSet, mapGet]
  | cons h t ih =>
    by_cases hk : h.1 = k
    · simp [mapSet, hk, mapGet]
    · simp [mapSet, hk, mapGet, ih]

theorem mapGet_del_self {α : Type} (l : List (String × α)) (k : String) :
    mapGet (mapDel l k) k = none := by
  induction l with
  | nil => simp [mapDel, mapGet]
  | cons h t ih =>
    by_cases hk : h.1 = k
    · simp [mapDel, hk, ih]
    · simp [mapDel, hk, mapGet, ih]

theorem not_mem_setDel_self (l : List String) (k : String) :
    k ∉ setDel l k := by
  induction l with
  | nil => simp [setDel]
  | cons h t ih =>
    by_cases hk : h = k
    · simpa [setDel, hk] using ih
    · simp only [setDel, if_neg hk, List.mem_cons]
      rintro (h' | h')
      · exact hk h'.symm
      · exact ih h'

theorem mem_setAdd_self (l : List String) (k : String) : k ∈ setAdd l k := by
  by_cases h : k ∈ l <;> simp [setAdd, h]

/-! ## Document Preprocessor (`compressImage`, `buildContentFromFiles`) -/

/-- `MAX_PDF_TEXT_CHARS = 15000` (token cost limit on extracted PDF text). -/
def MAX_PDF_TEXT_CHARS : Nat := 15000

/-- `MAX_PDF_BASE64_MB = 5` (skip vision for huge PDFs). -/
def MAX_PDF_BASE64_MB : Nat := 5

/-- `MAX_IMAGE_WIDTH = 1200`. -/
def MAX_IMAGE_WIDTH : Nat := 1200

/-- `IMAGE_QUALITY = 75`. -/
def IMAGE_QUALITY : Nat := 75

/-- An uploaded file as the preprocessor sees it: the multer metadata plus
the responses of the two external collaborators applied to its bytes
(`pdf-parse`, which either yields the embedded text or throws, and
`sharp`'s metadata giving the pixel dimensions of an image file). -/
structure SrcFile where
  mimetype : String
  originalname : String
  /-- `file.buffer.length` in bytes. -/
  bufLen : Nat
  /-- Result of `pdfParse(file.buffer)`: `some text` on success (the raw
  `pdfData.text`), `none` when the parse throws. -/
  pdfText : Option String
  /-- `sharp(buffer).metadata().width` in pixels. -/
  imgWidth : Nat
  /-- `sharp(buffer).metadata().height` in pixels. -/
  imgHeight : Nat
deriving DecidableEq

/-- The payload forwarded for an image file: either the original upload
bytes, or bytes re-encoded by `sharp` as JPEG at the given quality and
pixel dimensions.  The code only ever constructs the second form. -/
inductive ImagePayload
  | original (f : SrcFile)
  | jpegEncoded (width height quality : Nat)
deriving DecidableEq

/-- One Claude API content block produced by `buildContentFromFiles`. -/
inductive ContentBlock
  | text (s : String)
  /-- A `document` block: the raw PDF buffer forwarded base64-encoded
  (characterised by its byte length). -/
  | document (bufLen : Nat)
  | image (payload : ImagePayload)
deriving DecidableEq

/-- Whitespace for the embedding of JS `String.prototype.trim` and of `\s`
(the constants involved only use ASCII whitespace). -/
def isWsChar (c : Char) : Bool :=
  c = ' ' || c = '\t' || c = '\n' || c = '\r'

/-- JS `s.trim()`. -/
def jsTrim (s : String) : String :=
  ⟨((s.data.dropWhile isWsChar).reverse.dropWhile isWsChar).reverse⟩

/-- JS `s.substring(0, n)`: the first `n` characters. -/
def jsSubstring0 (s : String) (n : Nat) : String := ⟨s.data.take n⟩

/-- The truncation marker appended to over-long PDF text. -/
def TRUNC_MARKER : String :=
  "\n\n[... Text gekürzt, restliche Seiten nicht einbezogen ...]"

/-- The wrapper put around extracted PDF text in a text content block. -/
def pdfWrap (name body : String) : String :=
  "--- PDF: " ++ name ++ " ---\n" ++ body ++ "\n---"

/-- `compressImage(buffer, mimetype)`: resize only when
`metadata.width > MAX_IMAGE_WIDTH` (`sharp.resize(MAX_IMAGE_WIDTH, null,
{ withoutEnlargement: true })` fixes the width and scales the height
proportionally), then always re-encode as JPEG at `IMAGE_QUALITY`. -/
def compressImage (f : SrcFile) : ImagePayload :=
  if f.imgWidth > MAX_IMAGE_WIDTH then
    ImagePayload.jpegEncoded MAX_IMAGE_WIDTH
      (f.imgHeight * MAX_IMAGE_WIDTH / f.imgWidth) IMAGE_QUALITY
  else
    ImagePayload.jpegEncoded f.imgWidth f.imgHeight IMAGE_QUALITY

/-- The placeholder emitted for a PDF whose text is unusable and whose
bytes exceed the vision size cap (`sizeMB > MAX_PDF_BASE64_MB`). -/
def pdfTooLargeBlock (f : SrcFile) : ContentBlock :=
  ContentBlock.text (pdfWrap f.originalname
    "[Dokument konnte nicht gelesen werden. Die Datei ist zu groß. Bitte laden Sie einzelne Fotos der Seiten hoch.]")

/-- The placeholder emitted when `pdfParse` throws and the PDF also
exceeds the vision size cap. -/
def pdfParseFailBlock (f : SrcFile) : ContentBlock :=
  ContentBlock.text (pdfWrap f.originalname
    "[Dokument konnte nicht gelesen werden. Bitte laden Sie Fotos der einzelnen Seiten hoch.]")

/-- The loop body of `buildContentFromFiles`: the single content block
pushed for one uploaded file. -/
def processFile (f : SrcFile) : ContentBlock :=
  if f.mimetype = "application/pdf" then
    match f.pdfText with
    | some raw =>
      let text := jsTrim raw
      if text.length > 100 then
        let text2 :=
          if text.length > MAX_PDF_TEXT_CHARS then
            jsSubstring0 text MAX_PDF_TEXT_CHARS ++ TRUNC_MARKER
          else text
        ContentBlock.text (pdfWrap f.originalname text2)
      else
        if f.bufLen > MAX_PDF_BASE64_MB * 1024 * 1024 then pdfTooLargeBlock f
        else ContentBlock.document f.bufLen
    | none =>
      if f.bufLen > MAX_PDF_BASE64_MB * 1024 * 1024 then pdfParseFailBlock f
      else ContentBlock.document f.bufLen
  else
    ContentBlock.image (compressImage f)

/-- The closing instruction block (`files.length > 1` joins the pages). -/
def finalNote (n : Nat) : ContentBlock :=
  ContentBlock.text
    (if n > 1 then
      "Dies sind " ++ toString n ++
        " Seiten/Fotos einer Nebenkostenabrechnung. Bitte analysiere sie zusammen als ein Dokument."
    else "Bitte analysiere diese Nebenkostenabrechnung.")

/-- `buildContentFromFiles(files)`. -/
def buildContentFromFiles (files : List SrcFile) : List ContentBlock :=
  files.map processFile ++ [finalNote files.length]

/-! ## Retry Wrapper (`runAnalysisWithRetry`) -/

/-- The structured result object parsed from the model's response; only
the fields the orchestrator inspects are kept, the remaining payload is
opaque. -/
structure AnalysisResult where
  /-- `result.validierung` (`undefined` embedded as `none`). -/
  validierung : Option String
  /-- `result.validierung_grund`. -/
  validierung_grund : Option String
  /-- The rest of the schema (findings, summary, savings, letter). -/
  payload : Nat
deriving DecidableEq

/-- An error thrown by `runAnalysis`/the SDK.  `status` is the HTTP status
carried by an `APIError` (`none` when the failure has no status, e.g. a
connection error; real HTTP statuses are ≥ 100, so JS `!err.status` is
embedded as `status = none`). -/
structure AnalysisError where
  status : Option Nat
  message : String
deriving DecidableEq

/-- The transient-failure test from `runAnalysisWithRetry`:
`err.status === 429 || 500 || 502 || 503 || !err.status`. -/
def isTransient (e : AnalysisError) : Bool :=
  e.status = some 429 || e.status = some 500 || e.status = some 502 ||
    e.status = some 503 || e.status = none

/-- The retry loop of `runAnalysisWithRetry` from a given attempt number;
`attempts` is the oracle giving each call's outcome (attempt numbers
start at 1 as in the source).  Returns the propagated outcome together
with the number of `runAnalysis` executions performed.  The backoff
delay (`attempt * 3000` ms) only affects timing, not the outcome. -/
def retryFrom (attempts : Nat → Except AnalysisError AnalysisResult)
    (maxRetries attempt : Nat) : Except AnalysisError AnalysisResult × Nat :=
  match attempts attempt with
  | Except.ok r => (Except.ok r, 1)
  | Except.error e =>
    if isTransient e = true ∧ attempt ≤ maxRetries then
      let rec_ := retryFrom attempts maxRetries (attempt + 1)
      (rec_.1, rec_.2 + 1)
    else (Except.error e, 1)
termination_by maxRetries + 1 - attempt
decreasing_by omega

/-- `runAnalysisWithRetry(files, ctx, maxRetries = 2)`: the loop starts
at attempt 1. -/
def runAnalysisWithRetry (attempts : Nat → Except AnalysisError AnalysisResult)
    (maxRetries : Nat := 2) : Except AnalysisError AnalysisResult × Nat :=
  retryFrom attempts maxRetries 1

/-! ## Analysis Invoker response handling (`runAnalysis`, lines 717-746)

`runAnalysis` locates the first top-level JSON object in the model's
free-form response with `responseText.match(/\{[\s\S]*\}/)` (first `{`
through the *last* `}` of the text), repairs it structurally when the
response hit the token ceiling (`stop_reason === 'max_tokens'`), and
hands the result to `JSON.parse`.  `JSON.parse` is the external JS
built-in; it is embedded as a pushdown acceptor for the JSON grammar
(RFC 8259: values, objects, arrays, strings with escapes, numbers,
literals; no trailing commas, no raw control characters in strings). -/

/-- The scanner state of the repair loop: open brace/bracket balance and
string/escape flags.  The counters are JS numbers that may go negative. -/
structure ScanSt where
  ob : Int
  obk : Int
  inString : Bool
  escaped : Bool
deriving DecidableEq

/-- One character step of the repair scanner, in the source's test order
(escaped first, then backslash, then quote, then in-string skip, then
bracket counting). -/
def scanStep (st : ScanSt) (c : Char) : ScanSt :=
  if st.escaped then { st with escaped := false }
  else if c = '\\' then { st with escaped := true }
  else if c = '"' then { st with inString := !st.inString }
  else if st.inString then st
  else if c = '{' then { st with ob := st.ob + 1 }
  else if c = '}' then { st with ob := st.ob - 1 }
  else if c = '[' then { st with obk := st.obk + 1 }
  else if c = ']' then { st with obk := st.obk - 1 }
  else st

def scanInit : ScanSt := ⟨0, 0, false, false⟩

def scanRun (cs : List Char) (st : ScanSt) : ScanSt := cs.foldl scanStep st

/-- `responseText.match(/\{[\s\S]*\}/)`: drop everything before the first
`{`; the greedy `[\s\S]*` extends the match to the last `}` of the text.
`none` when no such match exists (the `'Kein JSON in der Antwort
gefunden'` throw). -/
def locateJson (cs : List Char) : Option (List Char) :=
  let r := cs.dropWhile (fun c => !(c = '{' : Bool))
  let r2 := (r.reverse.dropWhile (fun c => !(c = '}' : Bool))).reverse
  if 2 ≤ r2.length then some r2 else none

/-- `jsonStr.replace(/,\s*$/, '')`: remove a trailing comma (and the
whitespace following it). -/
def stripTrailingComma (cs : List Char) : List Char :=
  match cs.reverse.dropWhile isWsChar with
  | ',' :: t => t.reverse
  | _ => cs

/-- The JSON repair applied when the response was truncated: close an
unterminated string, strip a trailing comma, then append the missing
`]`s and `}`s (in that order, as the source does). -/
def repairJson (cs : List Char) : List Char :=
  let st := scanRun cs scanInit
  let cs1 := if st.inString then cs ++ ['"'] else cs
  let cs2 := stripTrailingComma cs1
  cs2 ++ List.replicate st.obk.toNat ']' ++ List.replicate st.ob.toNat '}'

/-- Locate-then-repair: the string handed to `JSON.parse`, or `none` when
no JSON object could be located at all. -/
def processResponse (cs : List Char) (truncated : Bool) : Option (List Char) :=
  match locateJson cs with
  | none => none
  | some j => some (if truncated then repairJson j else j)

/-- Sub-state while reading a JSON string literal. -/
inductive StrSub
  | plain
  | esc
  /-- inside a `\uXXXX` escape, `n` hex digits still expected. -/
  | hex (n : Nat)
deriving DecidableEq

/-- Sub-state while reading a JSON number. -/
inductive NumSt
  | sign   -- after a leading '-'
  | zero   -- after a leading '0'
  | int    -- inside the integer digits (first digit 1-9)
  | dot    -- just after '.'
  | frac   -- inside the fraction digits
  | exp0   -- just after 'e'/'E'
  | expSign -- after the exponent sign
  | expd   -- inside the exponent digits
deriving DecidableEq

/-- A number sub-state at which the number is complete (a delimiter or the
end of input may follow). -/
def numDone (ns : NumSt) : Bool :=
  ns = NumSt.zero || ns = NumSt.int || ns = NumSt.frac || ns = NumSt.expd

/-- Open container frames of the JSON acceptor. -/
inductive JFrame
  | obj
  | arr
deriving DecidableEq

/-- Modes of the JSON acceptor. -/
inductive JMode
  | val                     -- expecting a value
  | arrStart                -- just after '[': value or ']'
  | objStart                -- just after '\x7b': key or '\x7d'
  | objKey                  -- after ',' in an object: key only
  | colon                   -- after a key: ':'
  | strV (sub : StrSub)     -- inside a value string
  | strK (sub : StrSub)     -- inside a key string
  | after                   -- after a complete value
  | num (ns : NumSt)        -- inside a number
  | lit (rest : List Char)  -- inside true/false/null
deriving DecidableEq

/-- Acceptor state: `fail` is absorbing. -/
inductive JState
  | fail
  | run (m : JMode) (stk : List JFrame)
deriving DecidableEq

def isHexDigit (c : Char) : Bool :=
  c.isDigit || ('a' ≤ c && c ≤ 'f') || ('A' ≤ c && c ≤ 'F')

/-- Dispatch on the first character of a value (caller has handled
whitespace). -/
def valStart (stk : List JFrame) (c : Char) : JState :=
  if c = '{' then JState.run JMode.objStart (JFrame.obj :: stk)
  else if c = '[' then JState.run JMode.arrStart (JFrame.arr :: stk)
  else if c = '"' then JState.run (JMode.strV StrSub.plain) stk
  else if c = '-' then JState.run (JMode.num NumSt.sign) stk
  else if c = '0' then JState.run (JMode.num NumSt.zero) stk
  else if c.isDigit then JState.run (JMode.num NumSt.int) stk
  else if c = 't' then JState.run (JMode.lit ['r', 'u', 'e']) stk
  else if c = 'f' then JState.run (JMode.lit ['a', 'l', 's', 'e']) stk
  else if c = 'n' then JState.run (JMode.lit ['u', 'l', 'l']) stk
  else JState.fail

/-- After a complete value: `,` continues the enclosing container, `}`/`]`
closes it; with an empty stack only whitespace may follow. -/
def afterStep (stk : List JFrame) (c : Char) : JState :=
  if isWsChar c then JState.run JMode.after stk
  else
    match stk with
    | [] => JState.fail
    | JFrame.obj :: t =>
      if c = ',' then JState.run JMode.objKey (JFrame.obj :: t)
      else if c = '}' then JState.run JMode.after t
      else JState.fail
    | JFrame.arr :: t =>
      if c = ',' then JState.run JMode.val (JFrame.arr :: t)
      else if c = ']' then JState.run JMode.after t
      else JState.fail

def strMode (isVal : Bool) (sub : StrSub) : JMode :=
  if isVal then JMode.strV sub else JMode.strK sub

/-- One character inside a string literal (value string ends in `after`,
key string ends in `colon`). -/
def stringStep (isVal : Bool) (sub : StrSub) (stk : List JFrame) (c : Char) :
    JState :=
  match sub with
  | StrSub.plain =>
    if c = '"' then
      if isVal then JState.run JMode.after stk else JState.run JMode.colon stk
    else if c = '\\' then JState.run (strMode isVal StrSub.esc) stk
    else if c.val < 32 then JState.fail
    else JState.run (strMode isVal StrSub.plain) stk
  | StrSub.esc =>
    if c = '"' || c = '\\' || c = '/' || c = 'b' || c = 'f' || c = 'n' ||
        c = 'r' || c = 't' then
      JState.run (strMode isVal StrSub.plain) stk
    else if c = 'u' then JState.run (strMode isVal (StrSub.hex 4)) stk
    else JState.fail
  | StrSub.hex n =>
    if isHexDigit c then
      if n ≤ 1 then JState.run (strMode isVal StrSub.plain) stk
      else JState.run (strMode isVal (StrSub.hex (n - 1))) stk
    else JState.fail

/-- One character inside a number; a delimiter closes the number and is
re-dispatched through `afterStep`. -/
def numStep (ns : NumSt) (stk : List JFrame) (c : Char) : JState :=
  if numDone ns && (isWsChar c || c = ',' || c = '}' || c = ']') then
    afterStep stk c
  else
    match ns with
    | NumSt.sign =>
      if c = '0' then JState.run (JMode.num NumSt.zero) stk
      else if c.isDigit then JState.run (JMode.num NumSt.int) stk
      else JState.fail
    | NumSt.zero =>
      if c = '.' then JState.run (JMode.num NumSt.dot) stk
      else if c = 'e' || c = 'E' then JState.run (JMode.num NumSt.exp0) stk
      else JState.fail
    | NumSt.int =>
      if c.isDigit then JState.run (JMode.num NumSt.int) stk
      else if c = '.' then JState.run (JMode.num NumSt.dot) stk
      else if c = 'e' || c = 'E' then JState.run (JMode.num NumSt.exp0) stk
      else JState.fail
    | NumSt.dot =>
      if c.isDigit then JState.run (JMode.num NumSt.frac) stk else JState.fail
    | NumSt.frac =>
      if c.isDigit then JState.run (JMode.num NumSt.frac) stk
      else if c = 'e' || c = 'E' then JState.run (JMode.num NumSt.exp0) stk
      else JState.fail
    | NumSt.exp0 =>
      if c = '+' || c = '-' then JState.run (JMode.num NumSt.expSign) stk
      else if c.isDigit then JState.run (JMode.num NumSt.expd) stk
      else JState.fail
    | NumSt.expSign =>
      if c.isDigit then JState.run (JMode.num NumSt.expd) stk else JState.fail
    | NumSt.expd =>
      if c.isDigit then JState.run (JMode.num NumSt.expd) stk else JState.fail

/-- One step of the JSON acceptor. -/
def jsonStep (s : JState) (c : Char) : JState :=
  match s with
  | JState.fail => JState.fail
  | JState.run m stk =>
    match m with
    | JMode.val =>
      if isWsChar c then JState.run JMode.val stk else valStart stk c
    | JMode.arrStart =>
      if isWsChar c then JState.run JMode.arrStart stk
      else if c = ']' then
        match stk with
        | JFrame.arr :: t => JState.run JMode.after t
        | _ => JState.fail
      else valStart stk c
    | JMode.objStart =>
      if isWsChar c then JState.run JMode.objStart stk
      else if c = '"' then JState.run (JMode.strK StrSub.plain) stk
      else if c = '}' then
        match stk with
        | JFrame.obj :: t => JState.run JMode.after t
        | _ => JState.fail
      else JState.fail
    | JMode.objKey =>
      if isWsChar c then JState.run JMode.objKey stk
      else if c = '"' then JState.run (JMode.strK StrSub.plain) stk
      else JState.fail
    | JMode.colon =>
      if isWsChar c then JState.run JMode.colon stk
      else if c = ':' then JState.run JMode.val stk
      else JState.fail
    | JMode.strV sub => stringStep true sub stk c
    | JMode.strK sub => stringStep false sub stk c
    | JMode.after => afterStep stk c
    | JMode.num ns => numStep ns stk c
    | JMode.lit rest =>
      match rest with
      | [] => JState.fail
      | r :: t =>
        if c = r then
          if t = [] then JState.run JMode.after stk
          else JState.run (JMode.lit t) stk
        else JState.fail

def jsonRun (cs : List Char) (s : JState) : JState := cs.foldl jsonStep s

/-- End-of-input acceptance: a complete value with an empty stack (a
pending number is closed by the end of input). -/
def jsonFinal (s : JState) : Bool :=
  match s with
  | JState.run JMode.after [] => true
  | JState.run (JMode.num ns) [] => numDone ns
  | _ => false

/-- `JSON.parse(text)` succeeds. -/
def jsonAccept (cs : List Char) : Bool :=
  jsonFinal (jsonRun cs (JState.run JMode.val []))

/-- `JSON.parse(text)` succeeds and the parsed value is an object (the
first non-blank character of a value determines its kind). -/
def jsonAcceptsObject (cs : List Char) : Bool :=
  jsonAccept cs && (cs.dropWhile isWsChar).head? = some '{'

/-! ## Session State Store and Job Orchestrator

The three process-wide maps (`pendingFiles`, `activeAnalyses`,
`completedResults`), the analytics event log (`events.json`, read by
`hasEvent` and appended by `appendEvent`; only the
`(session_id, event_name)` pair matters to the control flow), and the
sequence of Stripe refund-creation calls actually issued
(`stripe.refunds.create`, an external side effect recorded here so that
"a refund was attempted" is observable) form the orchestrator state.
The `orders.json` store written by `upsertOrder` influences no control
flow and is not modelled. -/

/-- A `pendingFiles` entry (stored at checkout creation / retry upload). -/
structure PendingEntry where
  files : List SrcFile
  email : Option String
  plan : String
  livingAreaSqm : Option Nat
  createdAt : Nat
deriving DecidableEq

/-- A `completedResults` entry: success `{ result, createdAt }`,
validation failure `{ error, errorType, refunded, createdAt }`, or infra
failure `{ error, errorType, createdAt }` (no `refunded` field). -/
inductive CompletedEntry
  | ok (result : AnalysisResult) (createdAt : Nat)
  | err (error : String) (errorType : String) (refunded : Option Bool)
      (createdAt : Nat)
deriving DecidableEq

structure ServerState where
  pendingFiles : List (String × PendingEntry)
  activeAnalyses : List String
  completedResults : List (String × CompletedEntry)
  /-- the `events.json` log as `(session_id, event_name)` pairs. -/
  events : List (String × String)
  /-- session ids for which a `stripe.refunds.create` call was issued. -/
  refundCreates : List String
deriving DecidableEq

/-- `hasEvent(sessionId, eventName)`. -/
def hasEvent (s : ServerState) (sid ev : String) : Prop := (sid, ev) ∈ s.events

instance (s : ServerState) (sid ev : String) : Decidable (hasEvent s sid ev) :=
  inferInstanceAs (Decidable ((sid, ev) ∈ s.events))

/-- `appendEvent({sessionId, eventName, ...})`. -/
def appendEvent (s : ServerState) (sid ev : String) : ServerState :=
  { s with events := s.events ++ [(sid, ev)] }

/-- What `stripe.checkout.sessions.retrieve(sessionId)` reports to
`autoRefund`, plus whether the subsequent `stripe.refunds.create` call
succeeds; `Except.error` means `retrieve` itself threw. -/
structure StripeRefundInfo where
  /-- `session.payment_intent` is present (truthy). -/
  hasPaymentIntent : Bool
  /-- `session.payment_status`. -/
  paymentStatus : String
  /-- the `stripe.refunds.create` call resolves rather than throws. -/
  refundCreateOk : Bool
deriving DecidableEq

/-- The state mutation performed by `autoRefund` up to and including the
issuing of the `stripe.refunds.create` call (the attempt itself); the
code then suspends awaiting the call. -/
def autoRefundAttempt (st : Except Unit StripeRefundInfo) (sid : String)
    (s : ServerState) : ServerState :=
  match st with
  | Except.error _ => s
  | Except.ok info =>
    if info.hasPaymentIntent = true ∧ info.paymentStatus = "paid" then
      { s with refundCreates := s.refundCreates ++ [sid] }
    else s

/-- The rest of `autoRefund` after the `refunds.create` await: on success,
record the order refund status and append a `refund_issued` event unless
one already exists, returning `true`; a throw anywhere is caught and
yields `false`. -/
def autoRefundFinish (st : Except Unit StripeRefundInfo) (sid : String)
    (s : ServerState) : ServerState × Bool :=
  match st with
  | Except.error _ => (s, false)
  | Except.ok info =>
    if info.hasPaymentIntent = true ∧ info.paymentStatus = "paid" then
      if info.refundCreateOk then
        (if hasEvent s sid "refund_issued" then s
         else appendEvent s sid "refund_issued", true)
      else (s, false)
    else (s, false)

/-- `autoRefund(sessionId, reason)` as a whole. -/
def autoRefund (st : Except Unit StripeRefundInfo) (sid : String)
    (s : ServerState) : ServerState × Bool :=
  autoRefundFinish st sid (autoRefundAttempt st sid s)

/-- `PLAN_CONFIG`: the single `basic` plan. -/
structure PlanConfig where
  amountCents : Nat
  label : String
deriving DecidableEq

def PLAN_CONFIG : List (String × PlanConfig) := [("basic", ⟨499, "Basic"⟩)]

/-- `getPlanConfig(planName)`: `PLAN_CONFIG[planName] || PLAN_CONFIG.basic`. -/
def getPlanConfig (planName : String) : PlanConfig :=
  match mapGet PLAN_CONFIG planName with
  | some c => c
  | none => ⟨499, "Basic"⟩

/-- JS `(amountCents / 100).toFixed(2).replace('.', ',')` for a Nat number
of cents. -/
def formatEuro (cents : Nat) : String :=
  toString (cents / 100) ++ "," ++
    (if cents % 100 < 10 then "0" else "") ++ toString (cents % 100)

/-- The per-validation-kind message templates (`validierungMessages`). -/
def validierungMessages (v : String) : Option String :=
  if v = "nicht_lesbar" then
    some "Das Dokument konnte leider nicht gelesen werden. Bitte laden Sie deutlichere Fotos oder ein besseres PDF hoch."
  else if v = "keine_abrechnung" then
    some "Das hochgeladene Dokument scheint keine Nebenkostenabrechnung zu sein."
  else if v = "unvollstaendig" then
    some "Das Dokument scheint unvollständig zu sein. Bitte laden Sie alle Seiten Ihrer Abrechnung hoch."
  else none

/-- The user-facing message composed for a validation failure: template
(or generic fallback), plus the model's own explanation when given, plus
the refunded amount when the refund succeeded. -/
def validationErrorMsg (v : String) (grund : Option String) (plan : String)
    (refunded : Bool) : String :=
  let m0 :=
    match validierungMessages v with
    | some m => m
    | none => "Dokument konnte nicht verarbeitet werden."
  let m1 := match grund with | some g => m0 ++ " " ++ g | none => m0
  if refunded then
    m1 ++ " Ihr Geld (" ++ formatEuro (getPlanConfig plan).amountCents ++
      " €) wurde automatisch zurückerstattet."
  else m1

/-- The tail of the validation-failure branch after the `autoRefund`
await settles: compose the message and store the failure record (the
`finally` cleanup follows with no intervening suspension). -/
def storeValidationFailure (st : Except Unit StripeRefundInfo) (sid : String)
    (pending : PendingEntry) (v : String) (grund : Option String) (now : Nat)
    (s : ServerState) : ServerState :=
  let fr := autoRefundFinish st sid s
  { fr.1 with
    completedResults := mapSet fr.1.completedResults sid
      (CompletedEntry.err (validationErrorMsg v grund pending.plan fr.2)
        ("validation_" ++ v) (some fr.2) now) }

/-- The success branch before the optional email side effect: store the
result record and append the `analysis_completed` event. -/
def storeSuccess (sid : String) (r : AnalysisResult) (now : Nat)
    (s : ServerState) : ServerState :=
  let s1 := { s with
    completedResults := mapSet s.completedResults sid (CompletedEntry.ok r now) }
  appendEvent s1 sid "analysis_completed"

/-- The `.catch` handler: classify the error by status code
(`401 → config_error`, `429 → rate_limit`, otherwise a generic
`analysis_failed`) and store the failure record. -/
def storeInfraFailure (sid : String) (e : AnalysisError) (now : Nat)
    (s : ServerState) : ServerState :=
  let et :=
    if e.status = some 401 then ("config_error",
      "Interner Konfigurationsfehler. Bitte kontaktieren Sie den Support.")
    else if e.status = some 429 then ("rate_limit",
      "Unser System ist gerade überlastet. Bitte versuchen Sie es in wenigen Minuten erneut.")
    else ("analysis_failed", "Die Analyse konnte leider nicht abgeschlossen werden.")
  let entry := CompletedEntry.err et.2 et.1 none now
  { s with completedResults := mapSet s.completedResults sid entry }

/-- The `.finally` cleanup: clear the active marker and delete the
pending input. -/
def finallyCleanup (sid : String) (s : ServerState) : ServerState :=
  { s with
    activeAnalyses := setDel s.activeAnalyses sid,
    pendingFiles := mapDel s.pendingFiles sid }

/-- `result.validierung && result.validierung !== 'ok'`: the job counts
as a validation failure. -/
def isValidationFailure (r : AnalysisResult) : Option String :=
  match r.validierung with
  | some v => if v ≠ "ok" then some v else none
  | none => none

/-- The sequence of states of the shared store observable by other tasks
(poll handlers, other sessions' jobs) while one spawned background job
runs to settlement, starting from the launch state `s0`.  States are
recorded at every suspension point of the job's handlers; consecutive
mutations with no `await` between them (including the promise-chain hops
into `.then`/`.catch`/`.finally`, which are microtasks that the
event loop runs before any new I/O event) form one atomic block.

* infra failure: the `.catch` store and the `.finally` cleanup are one
  block;
* validation failure: the handler suspends inside `autoRefund` (await
  `retrieve`, then await `refunds.create`); the post-refund message
  composition, the failure store and the cleanup are one block;
* success without email: store plus cleanup are one block;
* success with email: the result store is followed by the awaits of
  `generatePDF`/`sendResultEmail` (a suspension with the record already
  stored and the session still active) before the cleanup block. -/
def jobObservables (st : Except Unit StripeRefundInfo) (sid : String)
    (pending : PendingEntry) (outcome : Except AnalysisError AnalysisResult)
    (now : Nat) (s0 : ServerState) : List ServerState :=
  match outcome with
  | Except.error e => [s0, finallyCleanup sid (storeInfraFailure sid e now s0)]
  | Except.ok r =>
    match isValidationFailure r with
    | some v =>
      [s0, autoRefundAttempt st sid s0,
       finallyCleanup sid
         (storeValidationFailure st sid pending v r.validierung_grund now
           (autoRefundAttempt st sid s0))]
    | none =>
      match pending.email with
      | some _ =>
        [s0, storeSuccess sid r now s0,
         finallyCleanup sid (storeSuccess sid r now s0)]
      | none => [s0, finallyCleanup sid (storeSuccess sid r now s0)]

/-- The synchronous prefix of `startBackgroundAnalysis(sessionId)`: the
already-running check, the pending-input lookup, and the insertion into
`activeAnalyses` run with no suspension point.  The returned flag tells
whether the asynchronous analysis task was spawned (one execution of
`runAnalysisWithRetry`); the spawned task's later effects are
`jobObservables`. -/
def startBackgroundAnalysis (sid : String) (s : ServerState) :
    ServerState × Bool :=
  if sid ∈ s.activeAnalyses then (s, false)
  else
    match mapGet s.pendingFiles sid with
    | none => (s, false)
    | some _ => ({ s with activeAnalyses := setAdd s.activeAnalyses sid }, true)

/-- What `stripe.checkout.sessions.retrieve` reports to the polling
endpoint. -/
structure StripePollInfo where
  paymentStatus : String
deriving DecidableEq

/-- A response of `GET /api/result/:sessionId`. -/
inductive PollResponse
  | processing
  | done (result : AnalysisResult)
  | error (message : String) (errorType : Option String)
deriving DecidableEq

/-- The polling endpoint `GET /api/result/:sessionId` (`pollStatus` in the
specification): cached-result check, active check, API-key check, Stripe
payment verification (`Except.error` = the `retrieve` call threw, caught
by the route's catch-all), `payment_completed` event dedup, pending-file
check, then launch.  Returns the HTTP response, the new state, and
whether this call spawned the background task. -/
def pollStatus (hasApiKey : Bool) (stripe : Except Unit StripePollInfo)
    (sid : String) (s : ServerState) : PollResponse × ServerState × Bool :=
  match mapGet s.completedResults sid with
  | some (CompletedEntry.err msg etype _ _) =>
    (PollResponse.error msg (some etype), s, false)
  | some (CompletedEntry.ok r _) => (PollResponse.done r, s, false)
  | none =>
    if sid ∈ s.activeAnalyses then (PollResponse.processing, s, false)
    else if hasApiKey = false then
      (PollResponse.error "ANTHROPIC_API_KEY nicht gesetzt." none, s, false)
    else
      match stripe with
      | Except.error _ =>
        (PollResponse.error
          "Fehler bei der Abfrage. Bitte versuchen Sie es erneut." none,
          s, false)
      | Except.ok info =>
        if info.paymentStatus ≠ "paid" then
          (PollResponse.error "Zahlung nicht abgeschlossen." none, s, false)
        else
          let s1 :=
            if hasEvent s sid "payment_completed" then s
            else appendEvent s sid "payment_completed"
          if (mapGet s1.pendingFiles sid).isNone then
            (PollResponse.error
              "Ihre Dateien konnten nicht mehr gefunden werden. Bitte laden Sie Ihre Abrechnung kostenlos erneut hoch."
              (some "files_expired"), s1, false)
          else
            let r := startBackgroundAnalysis sid s1
            (PollResponse.processing, r.1, r.2)

/-! ## Shared example fixtures -/

def pendingBasic : PendingEntry := ⟨[], none, "basic", none, 0⟩

def pendingWithEmail : PendingEntry :=
  ⟨[], some "kunde@example.de", "basic", none, 0⟩

def stripePaid : StripeRefundInfo := ⟨true, "paid", true⟩

def resultOk : AnalysisResult := ⟨some "ok", none, 7⟩

/-! ## C1: idempotent launch -/

/-- **C1.** For a session with a pending input that is not yet active,
launching twice spawns the analysis task exactly once: the
already-active check and the insertion into `activeAnalyses` inside
`startBackgroundAnalysis` run with no suspension point between them, so
the first launch request spawns the task and the second is a no-op that
changes nothing. -/
theorem launch_twice_spawns_once (s : ServerState) (sid : String)
    (p : PendingEntry) (hA : sid ∉ s.activeAnalyses)
    (hP : mapGet s.pendingFiles sid = some p) :
    (startBackgroundAnalysis sid s).2 = true ∧
      startBackgroundAnalysis sid (startBackgroundAnalysis sid s).1 =
        ((startBackgroundAnalysis sid s).1, false) := by
  have h1 : startBackgroundAnalysis sid s =
      ({ s with activeAnalyses := setAdd s.activeAnalyses sid }, true) := by
    unfold startBackgroundAnalysis
    simp [hA, hP]
  refine ⟨by simp [h1], ?_⟩
  rw [h1]
  unfold startBackgroundAnalysis
  simp [mem_setAdd_self]

theorem launch_twice_spawns_once_witness :
    (startBackgroundAnalysis "cs_1" ⟨[("cs_1", pendingBasic)], [], [], [], []⟩).2
        = true ∧
      startBackgroundAnalysis "cs_1"
          (startBackgroundAnalysis "cs_1"
            ⟨[("cs_1", pendingBasic)], [], [], [], []⟩).1 =
        ((startBackgroundAnalysis "cs_1"
            ⟨[("cs_1", pendingBasic)], [], [], [], []⟩).1, false) :=
  launch_twice_spawns_once _ "cs_1" pendingBasic (by decide) (by decide)

/-! ## C10: launch for a session without pending input is a no-op -/

/-- **C10.** For a session id with no pending-input entry,
`startBackgroundAnalysis` is a complete no-op: it spawns nothing and
returns the state unchanged (in particular all three maps are
unchanged and no active marker is created). -/
theorem launch_without_pending_noop (s : ServerState) (sid : String)
    (h : mapGet s.pendingFiles sid = none) :
    startBackgroundAnalysis sid s = (s, false) := by
  unfold startBackgroundAnalysis
  by_cases hA : sid ∈ s.activeAnalyses <;> simp [hA, h]

theorem launch_without_pending_noop_witness :
    startBackgroundAnalysis "cs_gone" ⟨[("cs_1", pendingBasic)], [], [], [], []⟩
      = (⟨[("cs_1", pendingBasic)], [], [], [], []⟩, false) :=
  launch_without_pending_noop _ "cs_gone" (by decide)

/-! ## C4: settlement always deletes the pending input and clears the
active marker -/

/-- **C4.** For every launched job and every outcome (success record,
validation-failure record, infra-failure record), the last observable
state of the job — after the `finally`-style cleanup that runs on every
outcome — has no pending-input entry and no active marker for the
session. -/
theorem job_settles_cleanup (st : Except Unit StripeRefundInfo) (sid : String)
    (pending : PendingEntry) (outcome : Except AnalysisError AnalysisResult)
    (now : Nat) (s0 : ServerState) :
    jobObservables st sid pending outcome now s0 ≠ [] ∧
      ∀ sf, (jobObservables st sid pending outcome now s0).getLast? = some sf →
        mapGet sf.pendingFiles sid = none ∧ sid ∉ sf.activeAnalyses := by
  have hclean : ∀ s : ServerState,
      mapGet (finallyCleanup sid s).pendingFiles sid = none ∧
        sid ∉ (finallyCleanup sid s).activeAnalyses := by
    intro s
    exact ⟨mapGet_del_self _ _, not_mem_setDel_self _ _⟩
  cases outcome with
  | error e =>
    refine ⟨by simp [jobObservables], ?_⟩
    intro sf hsf
    simp [jobObservables, List.getLast?_cons_cons, List.getLast?_singleton]
      at hsf
    subst hsf
    exact hclean _
  | ok r =>
    cases hv : isValidationFailure r with
    | some v =>
      refine ⟨by simp [jobObservables, hv], ?_⟩
      intro sf hsf
      simp [jobObservables, hv, List.getLast?_cons_cons,
        List.getLast?_singleton] at hsf
      subst hsf
      exact hclean _
    | none =>
      cases he : pending.email with
      | some em =>
        refine ⟨by simp [jobObservables, hv, he], ?_⟩
        intro sf hsf
        simp [jobObservables, hv, he, List.getLast?_cons_cons,
          List.getLast?_singleton] at hsf
        subst hsf
        exact hclean _
      | none =>
        refine ⟨by simp [jobObservables, hv, he], ?_⟩
        intro sf hsf
        simp [jobObservables, hv, he, List.getLast?_cons_cons,
          List.getLast?_singleton] at hsf
        subst hsf
        exact hclean _

theorem job_settles_cleanup_witness :
    jobObservables (Except.ok stripePaid) "cs_1" pendingBasic
        (Except.ok resultOk) 9 ⟨[("cs_1", pendingBasic)], ["cs_1"], [], [], []⟩
      ≠ [] ∧
    mapGet (finallyCleanup "cs_1"
        (storeSuccess "cs_1" resultOk 9
          ⟨[("cs_1", pendingBasic)], ["cs_1"], [], [], []⟩)).pendingFiles "cs_1"
      = none ∧
    "cs_1" ∉ (finallyCleanup "cs_1"
        (storeSuccess "cs_1" resultOk 9
          ⟨[("cs_1", pendingBasic)], ["cs_1"], [], [], []⟩)).activeAnalyses :=
  ⟨(job_settles_cleanup (Except.ok stripePaid) "cs_1" pendingBasic
      (Except.ok resultOk) 9 ⟨[("cs_1", pendingBasic)], ["cs_1"], [], [], []⟩).1,
   (job_settles_cleanup (Except.ok stripePaid) "cs_1" pendingBasic
      (Except.ok resultOk) 9
      ⟨[("cs_1", pendingBasic)], ["cs_1"], [], [], []⟩).2 _ (by decide)⟩

/-! ## C2: mutual exclusion of `activeFlag` and `completedRecord` -/

/-- The job outcome is a success whose validation status passes
(`validierung` absent or `"ok"`). -/
def isOkSuccess (outcome : Except AnalysisError AnalysisResult) : Bool :=
  match outcome with
  | Except.ok r => (isValidationFailure r).isNone
  | Except.error _ => false

theorem autoRefundAttempt_completed (st : Except Unit StripeRefundInfo)
    (sid : String) (s : ServerState) :
    (autoRefundAttempt st sid s).completedResults = s.completedResults ∧
      (autoRefundAttempt st sid s).activeAnalyses = s.activeAnalyses := by
  cases st with
  | error u => exact ⟨rfl, rfl⟩
  | ok info =>
    unfold autoRefundAttempt
    by_cases h : info.hasPaymentIntent = true ∧ info.paymentStatus = "paid" <;>
      simp [h]

/-- **C2 counterexample.**  The claim fails on the code: for a successful
job of a session with a contact email on file, the success handler
stores the completed record (line 1318) and then suspends awaiting
`generatePDF`/`sendResultEmail` before the `finally` cleanup runs, so
there is an observable instant — the second entry of the job's
observable trace — at which the session is still in `activeAnalyses`
while its entry in `completedResults` already exists. -/
theorem active_and_completed_simultaneously :
    storeSuccess "cs_2" resultOk 10
        ⟨[("cs_2", pendingWithEmail)], ["cs_2"], [], [], []⟩ ∈
      jobObservables (Except.ok stripePaid) "cs_2" pendingWithEmail
        (Except.ok resultOk) 10
        ⟨[("cs_2", pendingWithEmail)], ["cs_2"], [], [], []⟩ ∧
    "cs_2" ∈ (storeSuccess "cs_2" resultOk 10
        ⟨[("cs_2", pendingWithEmail)], ["cs_2"], [], [], []⟩).activeAnalyses ∧
    (mapGet (storeSuccess "cs_2" resultOk 10
        ⟨[("cs_2", pendingWithEmail)], ["cs_2"], [], [], []⟩).completedResults
        "cs_2").isSome = true := by
  refine ⟨?_, ?_, ?_⟩ <;> decide

/-- **C2 (amended).**  `activeFlag` and `completedRecord` are never
simultaneously true at any observable instant, *except* for a
successful analysis of a session with a contact email, where both hold
in the window between the success handler storing the record and the
`finally` cleanup (during the PDF/email delivery awaits).  In
particular the mutual exclusion holds at every observable instant
whenever the session has no email or the job does not settle as an
"ok" success, and the final (post-cleanup) state always satisfies it. -/
theorem active_completed_mutual_exclusion (st : Except Unit StripeRefundInfo)
    (sid : String) (pending : PendingEntry)
    (outcome : Except AnalysisError AnalysisResult) (now : Nat)
    (s0 : ServerState) (hC : mapGet s0.completedResults sid = none) :
    ((pending.email = none ∨ isOkSuccess outcome = false) →
      ∀ s' ∈ jobObservables st sid pending outcome now s0,
        ¬(sid ∈ s'.activeAnalyses ∧
          (mapGet s'.completedResults sid).isSome = true)) ∧
    (∀ sf, (jobObservables st sid pending outcome now s0).getLast? = some sf →
      ¬(sid ∈ sf.activeAnalyses ∧
        (mapGet sf.completedResults sid).isSome = true)) := by
  have hclean : ∀ s : ServerState,
      ¬(sid ∈ (finallyCleanup sid s).activeAnalyses ∧
        (mapGet (finallyCleanup sid s).completedResults sid).isSome = true) := by
    intro s h
    exact not_mem_setDel_self _ _ h.1
  have hs0 : ¬(sid ∈ s0.activeAnalyses ∧
      (mapGet s0.completedResults sid).isSome = true) := by
    intro h
    rw [hC] at h
    exact Bool.false_ne_true h.2
  constructor
  · intro hexc s' hs'
    cases outcome with
    | error e =>
      simp [jobObservables] at hs'
      rcases hs' with h | h
      · exact h ▸ hs0
      · exact h ▸ hclean _
    | ok r =>
      cases hv : isValidationFailure r with
      | some v =>
        simp [jobObservables, hv] at hs'
        rcases hs' with h | h | h
        · exact h ▸ hs0
        · subst h
          intro hbad
          rw [(autoRefundAttempt_completed st sid s0).2] at hbad
          rw [(autoRefundAttempt_completed st sid s0).1, hC] at hbad
          exact Bool.false_ne_true hbad.2
        · exact h ▸ hclean _
      | none =>
        cases he : pending.email with
        | some em =>
          rcases hexc with he' | ho
          · rw [he] at he'
            cases he'
          · rw [isOkSuccess, hv] at ho
            simp at ho
        | none =>
          simp [jobObservables, hv, he] at hs'
          rcases hs' with h | h
          · exact h ▸ hs0
          · exact h ▸ hclean _
  · intro sf hsf
    cases outcome with
    | error e =>
      simp [jobObservables, List.getLast?_cons_cons, List.getLast?_singleton]
        at hsf
      subst hsf
      exact hclean _
    | ok r =>
      cases hv : isValidationFailure r with
      | some v =>
        simp [jobObservables, hv, List.getLast?_cons_cons,
          List.getLast?_singleton] at hsf
        subst hsf
        exact hclean _
      | none =>
        cases he : pending.email with
        | some em =>
          simp [jobObservables, hv, he, List.getLast?_cons_cons,
            List.getLast?_singleton] at hsf
          subst hsf
          exact hclean _
        | none =>
          simp [jobObservables, hv, he, List.getLast?_cons_cons,
            List.getLast?_singleton] at hsf
          subst hsf
          exact hclean _

theorem active_completed_mutual_exclusion_witness :
    ¬("cs_3" ∈ (finallyCleanup "cs_3" (storeSuccess "cs_3" resultOk 11
          ⟨[("cs_3", pendingBasic)], ["cs_3"], [], [], []⟩)).activeAnalyses ∧
      (mapGet (finallyCleanup "cs_3" (storeSuccess "cs_3" resultOk 11
          ⟨[("cs_3", pendingBasic)], ["cs_3"], [], [], []⟩)).completedResults
          "cs_3").isSome = true) :=
  (active_completed_mutual_exclusion (Except.ok stripePaid) "cs_3"
      pendingBasic (Except.ok resultOk) 11
      ⟨[("cs_3", pendingBasic)], ["cs_3"], [], [], []⟩ (by decide)).1
    (Or.inl (by decide)) _ (by decide)

/-! ## C3: refund policy -/

theorem storeSuccess_refundCreates (sid : String) (r : AnalysisResult)
    (now : Nat) (s : ServerState) :
    (storeSuccess sid r now s).refundCreates = s.refundCreates := rfl

theorem finallyCleanup_refundCreates (sid : String) (s : ServerState) :
    (finallyCleanup sid s).refundCreates = s.refundCreates := rfl

theorem autoRefundFinish_refundCreates (st : Except Unit StripeRefundInfo)
    (sid : String) (s : ServerState) :
    (autoRefundFinish st sid s).1.refundCreates = s.refundCreates := by
  cases st with
  | error u => rfl
  | ok info =>
    unfold autoRefundFinish
    by_cases h : info.hasPaymentIntent = true ∧ info.paymentStatus = "paid" <;>
      [skip; simp [h]]
    by_cases hok : info.refundCreateOk <;>
      by_cases he : hasEvent s sid "refund_issued" <;>
        simp [h, hok, he, appendEvent]

theorem autoRefundFinish_completed (st : Except Unit StripeRefundInfo)
    (sid : String) (s : ServerState) :
    (autoRefundFinish st sid s).1.completedResults = s.completedResults := by
  cases st with
  | error u => rfl
  | ok info =>
    unfold autoRefundFinish
    by_cases h : info.hasPaymentIntent = true ∧ info.paymentStatus = "paid" <;>
      [skip; simp [h]]
    by_cases hok : info.refundCreateOk <;>
      by_cases he : hasEvent s sid "refund_issued" <;>
        simp [h, hok, he, appendEvent]

/-- **C3 counterexample.**  The claim's "never more than one refund
attempt per session, prevented by checking whether a refund-issued
record already exists" fails on the code: the `hasEvent(sessionId,
'refund_issued')` check in `autoRefund` only guards the analytics
`appendEvent`, not the `stripe.refunds.create` call.  Re-triggering
`autoRefund` for a session that already has a `refund_issued` record
issues a second refund-creation call (while the analytics event is
indeed deduplicated). -/
theorem refund_retriggered_attempts_twice :
    (autoRefund (Except.ok stripePaid) "cs_4"
        ((autoRefund (Except.ok stripePaid) "cs_4"
          ⟨[], [], [], [], []⟩).1)).1.refundCreates = ["cs_4", "cs_4"] ∧
    (autoRefund (Except.ok stripePaid) "cs_4"
        ((autoRefund (Except.ok stripePaid) "cs_4"
          ⟨[], [], [], [], []⟩).1)).1.events = [("cs_4", "refund_issued")] := by
  refine ⟨?_, ?_⟩ <;> decide

/-- **C3 (amended).**  (i) A job settling with an "ok" (or absent)
validation status never touches the refund-creation calls at any
observable instant.  (ii) A job settling with a non-"ok" validation
status for a paid session with a payment intent issues exactly one
refund-creation call.  (iii) Polling a settled session returns the
cached record, leaves the state unchanged and spawns nothing, so
repeated `pollStatus` calls after settlement never re-trigger a refund.
(iv) However, the refund-issued-record check inside `autoRefund` only
deduplicates the analytics event: re-running the refund logic for an
already-refunded session issues a second refund-creation call (no
second `refund_issued` event). -/
theorem refund_policy
    : (∀ (st : Except Unit StripeRefundInfo) (sid : String)
        (pending : PendingEntry) (r : AnalysisResult) (now : Nat)
        (s0 : ServerState), isValidationFailure r = none →
        ∀ s' ∈ jobObservables st sid pending (Except.ok r) now s0,
          s'.refundCreates = s0.refundCreates) ∧
      (∀ (info : StripeRefundInfo) (sid : String) (pending : PendingEntry)
        (r : AnalysisResult) (v : String) (now : Nat) (s0 : ServerState),
        isValidationFailure r = some v →
        info.hasPaymentIntent = true → info.paymentStatus = "paid" →
        ∀ sf, (jobObservables (Except.ok info) sid pending (Except.ok r) now
            s0).getLast? = some sf →
          sf.refundCreates = s0.refundCreates ++ [sid]) ∧
      (∀ (hasApiKey : Bool) (stripe : Except Unit StripePollInfo)
        (sid : String) (s : ServerState) (c : CompletedEntry),
        mapGet s.completedResults sid = some c →
        (pollStatus hasApiKey stripe sid s).2 = (s, false)) ∧
      (∀ (info : StripeRefundInfo) (sid : String) (s : ServerState),
        info.hasPaymentIntent = true → info.paymentStatus = "paid" →
        info.refundCreateOk = true → ¬hasEvent s sid "refund_issued" →
        (autoRefund (Except.ok info) sid
            ((autoRefund (Except.ok info) sid s).1)).1.refundCreates =
          s.refundCreates ++ [sid] ++ [sid] ∧
        (autoRefund (Except.ok info) sid
            ((autoRefund (Except.ok info) sid s).1)).1.events =
          s.events ++ [(sid, "refund_issued")]) := by
  refine ⟨?_, ?_, ?_, ?_⟩
  · intro st sid pending r now s0 hv s' hs'
    cases he : pending.email with
    | some em =>
      simp [jobObservables, hv, he] at hs'
      rcases hs' with h | h | h <;> subst h <;> rfl
    | none =>
      simp [jobObservables, hv, he] at hs'
      rcases hs' with h | h <;> subst h <;> rfl
  · intro info sid pending r v now s0 hv h1 h2 sf hsf
    simp [jobObservables, hv, List.getLast?_cons_cons,
      List.getLast?_singleton] at hsf
    subst hsf
    rw [finallyCleanup_refundCreates]
    unfold storeValidationFailure
    have hfr := autoRefundFinish_refundCreates (Except.ok info) sid
      (autoRefundAttempt (Except.ok info) sid s0)
    simp only [hfr]
    simp [autoRefundAttempt, h1, h2]
  · intro hasApiKey stripe sid s c hc
    unfold pollStatus
    rw [hc]
    cases c <;> rfl
  · intro info sid s h1 h2 h3 hne
    have hfst : (autoRefund (Except.ok info) sid s).1 =
        { s with refundCreates := s.refundCreates ++ [sid],
                 events := s.events ++ [(sid, "refund_issued")] } := by
      unfold autoRefund autoRefundAttempt autoRefundFinish
      simp [h1, h2, h3, appendEvent, hasEvent] at hne ⊢
      intro hbad
      exact absurd hbad hne
    rw [hfst]
    unfold autoRefund autoRefundAttempt autoRefundFinish
    have hev : hasEvent
        { s with refundCreates := s.refundCreates ++ [sid] ++ [sid],
                 events := s.events ++ [(sid, "refund_issued")] }
        sid "refund_issued" := by
      unfold hasEvent
      simp
    simp [h1, h2, h3, appendEvent, hasEvent] at hev ⊢

theorem refund_policy_witness :
    (pollStatus true (Except.ok ⟨"paid"⟩) "cs_5"
        ⟨[], [], [("cs_5", CompletedEntry.ok resultOk 3)], [], []⟩).2 =
      (⟨[], [], [("cs_5", CompletedEntry.ok resultOk 3)], [], []⟩, false) :=
  refund_policy.2.2.1 true (Except.ok ⟨"paid"⟩) "cs_5"
    ⟨[], [], [("cs_5", CompletedEntry.ok resultOk 3)], [], []⟩
    (CompletedEntry.ok resultOk 3) (by decide)

/-! ## C5: Retry Wrapper contract -/

theorem retryFrom_exhaust (attempts : Nat → Except AnalysisError AnalysisResult)
    (maxRetries : Nat) (es : Nat → AnalysisError) (k : Nat) :
    ∀ attempt, attempt + k = maxRetries + 1 →
      (∀ i, attempt ≤ i → i ≤ maxRetries + 1 →
        attempts i = Except.error (es i) ∧ isTransient (es i) = true) →
      retryFrom attempts maxRetries attempt =
        (Except.error (es (maxRetries + 1)), k + 1) := by
  induction k with
  | zero =>
    intro attempt hsum hall
    have h := hall attempt le_rfl (by omega)
    have hcond : ¬(isTransient (es attempt) = true ∧ attempt ≤ maxRetries) := by
      rintro ⟨-, hle⟩
      omega
    unfold retryFrom
    simp only [h.1]
    rw [if_neg hcond]
    have : attempt = maxRetries + 1 := by omega
    rw [this]
  | succ k ih =>
    intro attempt hsum hall
    have h := hall attempt le_rfl (by omega)
    have hcond : isTransient (es attempt) = true ∧ attempt ≤ maxRetries :=
      ⟨h.2, by omega⟩
    have hrec := ih (attempt + 1) (by omega)
      (fun i hi1 hi2 => hall i (by omega) hi2)
    unfold retryFrom
    simp only [h.1]
    rw [if_pos hcond]
    simp only [hrec]

/-- **C5.**  The Retry Wrapper contract of `runAnalysisWithRetry` with the
default `maxRetries = 2`: (i) a failure is classified transient exactly
when it carries no status code or one of {429, 500, 502, 503}; (ii) for
the failure sequence [rate-limit, rate-limit, success] the wrapper
returns the success after exactly 2 retries (3 executions);  (iii) an
authorization failure (401) propagates immediately after a single
execution; (iv) when every attempt fails transiently, it performs
`maxRetries + 1` executions and propagates the last observed error
unchanged. -/
theorem retry_wrapper_contract :
    (∀ e : AnalysisError, isTransient e = true ↔
      (e.status = none ∨ e.status = some 429 ∨ e.status = some 500 ∨
        e.status = some 502 ∨ e.status = some 503)) ∧
    (∀ (attempts : Nat → Except AnalysisError AnalysisResult)
      (r : AnalysisResult) (e1 e2 : AnalysisError),
      attempts 1 = Except.error e1 → e1.status = some 429 →
      attempts 2 = Except.error e2 → e2.status = some 429 →
      attempts 3 = Except.ok r →
      runAnalysisWithRetry attempts 2 = (Except.ok r, 3)) ∧
    (∀ (attempts : Nat → Except AnalysisError AnalysisResult)
      (e : AnalysisError), attempts 1 = Except.error e →
      e.status = some 401 →
      runAnalysisWithRetry attempts 2 = (Except.error e, 1)) ∧
    (∀ (attempts : Nat → Except AnalysisError AnalysisResult)
      (maxRetries : Nat) (es : Nat → AnalysisError),
      (∀ i, 1 ≤ i → i ≤ maxRetries + 1 →
        attempts i = Except.error (es i) ∧ isTransient (es i) = true) →
      runAnalysisWithRetry attempts maxRetries =
        (Except.error (es (maxRetries + 1)), maxRetries + 1)) := by
  refine ⟨?_, ?_, ?_, ?_⟩
  · intro e
    unfold isTransient
    cases hs : e.status with
    | none => simp
    | some n => simp [hs, or_assoc]
  · intro attempts r e1 e2 h1 hs1 h2 hs2 h3
    have ht1 : isTransient e1 = true := by simp [isTransient, hs1]
    have ht2 : isTransient e2 = true := by simp [isTransient, hs2]
    unfold runAnalysisWithRetry
    unfold retryFrom
    simp only [h1]
    rw [if_pos (And.intro ht1 (by omega))]
    unfold retryFrom
    simp only [h2]
    rw [if_pos (And.intro ht2 (by omega))]
    unfold retryFrom
    simp only [h3]
  · intro attempts e h1 hs1
    have ht1 : isTransient e = false := by simp [isTransient, hs1]
    unfold runAnalysisWithRetry
    unfold retryFrom
    simp only [h1]
    rw [if_neg (by simp [ht1])]
  · intro attempts maxRetries es hall
    unfold runAnalysisWithRetry
    have := retryFrom_exhaust attempts maxRetries es maxRetries 1 (by omega)
      (fun i hi1 hi2 => hall i hi1 hi2)
    rw [this]

theorem retry_wrapper_contract_witness :
    runAnalysisWithRetry
        (fun i => if i = 3 then Except.ok resultOk
          else Except.error ⟨some 429, "rate limited"⟩) 2 =
      (Except.ok resultOk, 3) ∧
    runAnalysisWithRetry
        (fun _ => Except.error ⟨some 401, "bad key"⟩) 2 =
      (Except.error ⟨some 401, "bad key"⟩, 1) :=
  ⟨retry_wrapper_contract.2.1
      (fun i => if i = 3 then Except.ok resultOk
        else Except.error ⟨some 429, "rate limited"⟩)
      resultOk ⟨some 429, "rate limited"⟩ ⟨some 429, "rate limited"⟩
      rfl rfl rfl rfl rfl,
    retry_wrapper_contract.2.2.1
      (fun _ => Except.error ⟨some 401, "bad key"⟩)
      ⟨some 401, "bad key"⟩ rfl rfl⟩

/-! ## C8: PDF text truncation -/

/-- **C8.**  For a PDF whose extracted text is usable but longer than the
configured cap, the preprocessor emits a single text block holding the
text truncated to exactly `MAX_PDF_TEXT_CHARS` characters with the
explicit truncation marker appended — not the full text and not a
failure. -/
theorem pdf_text_truncated_to_cap (f : SrcFile) (raw : String)
    (hm : f.mimetype = "application/pdf") (hp : f.pdfText = some raw)
    (hl : (jsTrim raw).length > MAX_PDF_TEXT_CHARS) :
    processFile f = ContentBlock.text (pdfWrap f.originalname
      (jsSubstring0 (jsTrim raw) MAX_PDF_TEXT_CHARS ++ TRUNC_MARKER)) ∧
    (jsSubstring0 (jsTrim raw) MAX_PDF_TEXT_CHARS).length =
      MAX_PDF_TEXT_CHARS := by
  constructor
  · have h100 : (jsTrim raw).length > 100 := by
      have : (100 : Nat) < 15000 := by omega
      unfold MAX_PDF_TEXT_CHARS at hl
      omega
    unfold processFile
    rw [hm, hp]
    simp [h100, hl]
  · show (jsSubstring0 (jsTrim raw) MAX_PDF_TEXT_CHARS).data.length = _
    unfold jsSubstring0
    simp [List.length_take]
    unfold MAX_PDF_TEXT_CHARS at hl ⊢
    have : (jsTrim raw).length = (jsTrim raw).data.length := rfl
    omega

theorem dropWhile_replicate_of_neg {p : Char → Bool} {c : Char}
    (h : p c = false) (n : Nat) :
    List.dropWhile p (List.replicate n c) = List.replicate n c := by
  cases n with
  | zero => rfl
  | succ m => simp [List.replicate, List.dropWhile, h]

theorem jsTrim_replicate_a (n : Nat) :
    jsTrim ⟨List.replicate n 'a'⟩ = ⟨List.replicate n 'a'⟩ := by
  have hws : isWsChar 'a' = false := rfl
  unfold jsTrim
  simp [dropWhile_replicate_of_neg hws, List.reverse_replicate]

theorem pdf_text_truncated_to_cap_witness :
    processFile ⟨"application/pdf", "abrechnung.pdf", 400000,
        some ⟨List.replicate 20000 'a'⟩, 0, 0⟩ =
      ContentBlock.text (pdfWrap "abrechnung.pdf"
        (jsSubstring0 (jsTrim ⟨List.replicate 20000 'a'⟩) MAX_PDF_TEXT_CHARS ++
          TRUNC_MARKER)) ∧
    (jsSubstring0 (jsTrim ⟨List.replicate 20000 'a'⟩)
        MAX_PDF_TEXT_CHARS).length = MAX_PDF_TEXT_CHARS :=
  pdf_text_truncated_to_cap _ ⟨List.replicate 20000 'a'⟩ rfl rfl
    (by
      rw [jsTrim_replicate_a]
      show (List.replicate 20000 'a').length > MAX_PDF_TEXT_CHARS
      rw [List.length_replicate]
      unfold MAX_PDF_TEXT_CHARS
      omega)

/-! ## C9: image compression -/

/-- **C9 counterexample.**  The claim that the resize step bounds the
image's *longer dimension* by `MAX_IMAGE_WIDTH` fails on the code:
`compressImage` only checks `metadata.width > MAX_IMAGE_WIDTH`
(`sharp.resize(MAX_IMAGE_WIDTH, null)` fixes the width), so a portrait
photo of 800×2400 px is forwarded un-resized with its longer dimension
(the height, 2400 px) above the configured maximum of 1200 px. -/
theorem portrait_longer_dimension_unbounded :
    processFile ⟨"image/jpeg", "foto.jpg", 500000, none, 800, 2400⟩ =
      ContentBlock.image (ImagePayload.jpegEncoded 800 2400 IMAGE_QUALITY) ∧
    ¬(max 800 2400 ≤ MAX_IMAGE_WIDTH) := by
  refine ⟨by decide, by decide⟩

/-- **C9 (amended).**  Every uploaded file not declared as a PDF is
forwarded as re-encoded JPEG bytes at the fixed `IMAGE_QUALITY` — never
as the original bytes — and the resize step bounds the image's *width*
(not its longer dimension) by `MAX_IMAGE_WIDTH`. -/
theorem image_always_reencoded (f : SrcFile)
    (h : f.mimetype ≠ "application/pdf") :
    (∃ w hgt, processFile f =
        ContentBlock.image (ImagePayload.jpegEncoded w hgt IMAGE_QUALITY) ∧
        w ≤ MAX_IMAGE_WIDTH) ∧
    ∀ g : SrcFile, processFile f ≠ ContentBlock.image (ImagePayload.original g)
    := by
  have hbl : processFile f = ContentBlock.image (compressImage f) := by
    unfold processFile
    simp [h]
  constructor
  · by_cases hw : f.imgWidth > MAX_IMAGE_WIDTH
    · exact ⟨MAX_IMAGE_WIDTH, f.imgHeight * MAX_IMAGE_WIDTH / f.imgWidth,
        by rw [hbl]; unfold compressImage; rw [if_pos hw], le_rfl⟩
    · exact ⟨f.imgWidth, f.imgHeight,
        by rw [hbl]; unfold compressImage; rw [if_neg hw], by omega⟩
  · intro g hbad
    rw [hbl] at hbad
    unfold compressImage at hbad
    by_cases hw : f.imgWidth > MAX_IMAGE_WIDTH
    · rw [if_pos hw] at hbad
      simp at hbad
    · rw [if_neg hw] at hbad
      simp at hbad

theorem image_always_reencoded_witness :
    (∃ w hgt, processFile ⟨"image/png", "seite1.png", 250000, none, 2000, 1500⟩
        = ContentBlock.image (ImagePayload.jpegEncoded w hgt IMAGE_QUALITY) ∧
        w ≤ MAX_IMAGE_WIDTH) ∧
    ∀ g : SrcFile,
      processFile ⟨"image/png", "seite1.png", 250000, none, 2000, 1500⟩ ≠
        ContentBlock.image (ImagePayload.original g) :=
  image_always_reencoded ⟨"image/png", "seite1.png", 250000, none, 2000, 1500⟩
    (by decide)

/-! ## C7: validation failure `keine_abrechnung` message -/

/-- `needle` occurs as a contiguous substring of `hay`. -/
def strContainsP (hay needle : String) : Prop := needle.data <:+: hay.data

theorem strContains_of_eq (m a n b : String) (h : m = a ++ (n ++ b)) :
    strContainsP m n := by
  subst h
  unfold strContainsP
  refine ⟨a.data, b.data, ?_⟩
  rw [String.data_append, String.data_append, List.append_assoc]

theorem strContains_prefix (m n b : String) (h : m = n ++ b) :
    strContainsP m n := by
  subst h
  refine ⟨[], b.data, ?_⟩
  rw [String.data_append]
  rfl

theorem getPlanConfig_eq (p : String) : getPlanConfig p = ⟨499, "Basic"⟩ := by
  unfold getPlanConfig PLAN_CONFIG mapGet
  by_cases h : "basic" = p <;> simp [h, mapGet]

theorem validationErrorMsg_keine_abrechnung (grund : Option String)
    (plan : String) :
    validationErrorMsg "keine_abrechnung" grund plan true =
      (match grund with
       | some g =>
         "Das hochgeladene Dokument scheint keine Nebenkostenabrechnung zu sein."
           ++ " " ++ g
       | none =>
         "Das hochgeladene Dokument scheint keine Nebenkostenabrechnung zu sein.")
        ++ " Ihr Geld (" ++ "4,99" ++ " €) wurde automatisch zurückerstattet."
    := by
  have hK : validierungMessages "keine_abrechnung" =
      some "Das hochgeladene Dokument scheint keine Nebenkostenabrechnung zu sein."
    := by rfl
  have hfmt : formatEuro (getPlanConfig plan).amountCents = "4,99" := by
    rw [getPlanConfig_eq]
    rfl
  unfold validationErrorMsg
  rw [hK, hfmt]
  cases grund <;> rfl

/-- **C7.**  When a job settles with validation status
`keine_abrechnung` for a paid session with a payment intent (so the
refund succeeds), a refund-creation call is issued, the stored record
is a validation failure marked refunded, and the user-facing message
contains the fixed `keine_abrechnung` template, the model's own
explanation when one was given, and the confirmed refunded amount
"4,99 €". -/
theorem keine_abrechnung_refund_message (info : StripeRefundInfo)
    (sid : String) (pending : PendingEntry) (r : AnalysisResult) (now : Nat)
    (s0 : ServerState) (h1 : info.hasPaymentIntent = true)
    (h2 : info.paymentStatus = "paid") (h3 : info.refundCreateOk = true)
    (hv : r.validierung = some "keine_abrechnung") :
    (∀ sf, (jobObservables (Except.ok info) sid pending (Except.ok r) now
        s0).getLast? = some sf →
      sf.refundCreates = s0.refundCreates ++ [sid] ∧
      mapGet sf.completedResults sid = some (CompletedEntry.err
        (validationErrorMsg "keine_abrechnung" r.validierung_grund
          pending.plan true)
        "validation_keine_abrechnung" (some true) now)) ∧
    strContainsP
      (validationErrorMsg "keine_abrechnung" r.validierung_grund pending.plan
        true)
      "Das hochgeladene Dokument scheint keine Nebenkostenabrechnung zu sein."
      ∧
    strContainsP
      (validationErrorMsg "keine_abrechnung" r.validierung_grund pending.plan
        true) "4,99 €" ∧
    (∀ g, r.validierung_grund = some g →
      strContainsP
        (validationErrorMsg "keine_abrechnung" r.validierung_grund pending.plan
          true) g) := by
  have hvf : isValidationFailure r = some "keine_abrechnung" := by
    simp [isValidationFailure, hv]
  have hfinish : ∀ s : ServerState,
      autoRefundFinish (Except.ok info) sid s =
        ((if hasEvent s sid "refund_issued" then s
          else appendEvent s sid "refund_issued"), true) := by
    intro s
    unfold autoRefundFinish
    simp [h1, h2, h3]
  refine ⟨?_, ?_, ?_, ?_⟩
  · intro sf hsf
    simp [jobObservables, hvf, List.getLast?_cons_cons,
      List.getLast?_singleton] at hsf
    subst hsf
    constructor
    · rw [finallyCleanup_refundCreates]
      unfold storeValidationFailure
      rw [hfinish]
      have hattempt : autoRefundAttempt (Except.ok info) sid s0 =
          { s0 with refundCreates := s0.refundCreates ++ [sid] } := by
        unfold autoRefundAttempt
        simp [h1, h2]
      split <;> simp [hattempt, appendEvent]
    · show mapGet (storeValidationFailure (Except.ok info) sid pending
          "keine_abrechnung" r.validierung_grund now
          (autoRefundAttempt (Except.ok info) sid s0)).completedResults sid = _
      unfold storeValidationFailure
      rw [hfinish]
      have : ("validation_" ++ "keine_abrechnung" : String) =
          "validation_keine_abrechnung" := rfl
      split <;> simp [appendEvent, mapGet_set_self, this]
  · refine strContains_prefix _ _
      (match r.validierung_grund with
       | some g => " " ++ (g ++ (" Ihr Geld (" ++
          ("4,99" ++ " €) wurde automatisch zurückerstattet.")))
       | none => " Ihr Geld (" ++
          ("4,99" ++ " €) wurde automatisch zurückerstattet.")) ?_
    rw [validationErrorMsg_keine_abrechnung]
    cases r.validierung_grund <;> (simp [String.append_assoc]; try rfl)
  · refine strContains_of_eq _
      ((match r.validierung_grund with
        | some g =>
          "Das hochgeladene Dokument scheint keine Nebenkostenabrechnung zu sein."
            ++ " " ++ g
        | none =>
          "Das hochgeladene Dokument scheint keine Nebenkostenabrechnung zu sein.")
        ++ " Ihr Geld (") _
      ") wurde automatisch zurückerstattet." ?_
    rw [validationErrorMsg_keine_abrechnung]
    cases r.validierung_grund <;> simp [String.append_assoc]
  · intro g hg
    refine strContains_of_eq _
      ("Das hochgeladene Dokument scheint keine Nebenkostenabrechnung zu sein."
        ++ " ") _
      (" Ihr Geld (" ++ ("4,99" ++ " €) wurde automatisch zurückerstattet."))
      ?_
    rw [validationErrorMsg_keine_abrechnung, hg]
    simp [String.append_assoc]

/-! ## C6: JSON repair of truncated responses

`locateJson` cuts the response at the *last* `}` of the text.  When the
truncation point of a response cut off mid-string lies after a `}`
character that occurs *inside* the unfinished string literal, the
located text itself ends inside a string; the repair then closes the
string but appends the missing `]`s before the missing `}`s, producing
text that `JSON.parse` rejects.  When the unfinished trailing portion
contains no `}` at all, the locator's cut lands at the closing brace of
the last complete finding, the incomplete trailing element is dropped
by the cut, and the repair yields a parseable object. -/

/-- A truncated model response: the findings array is cut off inside the
string value of the third element's `"zitat"` field, whose quoted text
itself contains `\x7b1\x7d`. -/
def c6badResp : List Char :=
  "\x7b\"auffaelligkeiten\":[\x7b\"zitat\":\"Abschnitt \x7b1\x7d zeigt".data

/-- **C6 counterexample.**  A response that hit the token ceiling and is
truncated mid-string inside the findings array for which the
locate-and-repair step does *not* produce a string that parses: the
scanner ends inside a string (the located text is cut mid-string), and
the repaired text `...\"Abschnitt \x7b1\x7d\"]\x7d\x7d` closes the array before
the inner object, so `JSON.parse` fails. -/
theorem json_repair_truncated_midstring_fails :
    (Option.map (fun j => (scanRun j scanInit).inString)
      (locateJson c6badResp)) = some true ∧
    (Option.map jsonAccept (processResponse c6badResp true)) = some false := by
  refine ⟨by decide, by decide⟩

/-- Characters allowed inside the string values of a serialized finding:
anything except a quote, a backslash, and control characters.  (`\x7b`,
`\x7d`, `[`, `]` inside a closed string are harmless: the repair
scanner and the JSON grammar both skip them.) -/
def safeChar (c : Char) : Prop := c ≠ '"' ∧ c ≠ '\\' ∧ ¬(c.val < 32)

instance (c : Char) : Decidable (safeChar c) := by
  unfold safeChar
  infer_instance

def safeStr (s : String) : Prop := ∀ c ∈ s.data, safeChar c

instance (s : String) : Decidable (safeStr s) := by
  unfold safeStr
  infer_instance

/-- One line-item finding, with the fields of the response schema that
matter to truncation (string-valued). -/
structure Finding where
  posten : String
  bewertung : String
  zitat : String
deriving DecidableEq

def safeFinding (f : Finding) : Prop :=
  safeStr f.posten ∧ safeStr f.bewertung ∧ safeStr f.zitat

instance (f : Finding) : Decidable (safeFinding f) := by
  unfold safeFinding
  infer_instance

def jsO : List Char := "\x7b\"posten\":\"".data

def jsM1 : List Char := "\",\"bewertung\":\"".data

def jsM2 : List Char := "\",\"zitat\":\"".data

def jsE : List Char := "\"\x7d".data

/-- The serialization of one complete finding object. -/
def sfChars (f : Finding) : List Char :=
  jsO ++ f.posten.data ++ jsM1 ++ f.bewertung.data ++ jsM2 ++ f.zitat.data
    ++ jsE

/-- The serialized findings joined by commas. -/
def joinFindings : List Finding → List Char
  | [] => []
  | [f] => sfChars f
  | f :: g :: t => sfChars f ++ ',' :: joinFindings (g :: t)

def respPrefix : List Char := "\x7b\"auffaelligkeiten\":[".data

/-- A model response that hit the token ceiling while writing the next
element of the findings array: the complete findings, a comma, then the
unfinished trailing portion `tl`. -/
def mkTruncResponse (fs : List Finding) (tl : List Char) : List Char :=
  respPrefix ++ joinFindings fs ++ ',' :: tl

theorem scanRun_append (xs ys : List Char) (st : ScanSt) :
    scanRun (xs ++ ys) st = scanRun ys (scanRun xs st) := by
  unfold scanRun
  exact List.foldl_append _ _ _ _

theorem jsonRun_append (xs ys : List Char) (s : JState) :
    jsonRun (xs ++ ys) s = jsonRun ys (jsonRun xs s) := by
  unfold jsonRun
  exact List.foldl_append _ _ _ _

theorem dropWhile_append_of_all {p : Char → Bool} {l1 : List Char}
    (l2 : List Char) (h : ∀ c ∈ l1, p c = true) :
    List.dropWhile p (l1 ++ l2) = List.dropWhile p l2 := by
  induction l1 with
  | nil => rfl
  | cons c t ih =>
    have hc : p c = true := h c (List.mem_cons_self c t)
    simp only [List.cons_append, List.dropWhile_cons, hc, if_true]
    exact ih (fun x hx => h x (List.mem_cons_of_mem c hx))

theorem scanRun_safe_content (l : List Char) (h : ∀ c ∈ l, safeChar c)
    (a b : Int) : scanRun l ⟨a, b, true, false⟩ = ⟨a, b, true, false⟩ := by
  induction l with
  | nil => rfl
  | cons c t ih =>
    have hc := h c (List.mem_cons_self c t)
    have hstep : scanStep ⟨a, b, true, false⟩ c = ⟨a, b, true, false⟩ := by
      unfold scanStep
      simp [hc.1, hc.2.1]
    show scanRun (c :: t) ⟨a, b, true, false⟩ = _
    unfold scanRun
    rw [List.foldl_cons, hstep]
    exact ih (fun x hx => h x (List.mem_cons_of_mem c hx))

theorem jsO_chars : jsO = ['{', '"', 'p', 'o', 's', 't', 'e', 'n', '"',
    ':', '"'] := rfl

theorem jsM1_chars : jsM1 = ['"', ',', '"', 'b', 'e', 'w', 'e', 'r', 't',
    'u', 'n', 'g', '"', ':', '"'] := rfl

theorem jsM2_chars : jsM2 = ['"', ',', '"', 'z', 'i', 't', 'a', 't', '"',
    ':', '"'] := rfl

theorem jsE_chars : jsE = ['"', '}'] := rfl

theorem scanRun_jsO (a b : Int) :
    scanRun jsO ⟨a, b, false, false⟩ = ⟨a + 1, b, true, false⟩ := by
  rw [jsO_chars]
  simp [scanRun, scanStep]

theorem scanRun_jsM1 (a b : Int) :
    scanRun jsM1 ⟨a, b, true, false⟩ = ⟨a, b, true, false⟩ := by
  rw [jsM1_chars]
  simp [scanRun, scanStep]

theorem scanRun_jsM2 (a b : Int) :
    scanRun jsM2 ⟨a, b, true, false⟩ = ⟨a, b, true, false⟩ := by
  rw [jsM2_chars]
  simp [scanRun, scanStep]

theorem scanRun_jsE (a b : Int) :
    scanRun jsE ⟨a, b, true, false⟩ = ⟨a - 1, b, false, false⟩ := by
  rw [jsE_chars]
  simp [scanRun, scanStep]

theorem scanRun_sf (f : Finding) (h : safeFinding f) (a b : Int) :
    scanRun (sfChars f) ⟨a, b, false, false⟩ = ⟨a, b, false, false⟩ := by
  unfold sfChars
  rw [scanRun_append, scanRun_append, scanRun_append, scanRun_append,
    scanRun_append, scanRun_append]
  rw [scanRun_jsO, scanRun_safe_content _ h.1, scanRun_jsM1,
    scanRun_safe_content _ h.2.1, scanRun_jsM2, scanRun_safe_content _ h.2.2,
    scanRun_jsE]
  congr 1
  omega

theorem scanRun_joinFindings (fs : List Finding)
    (h : ∀ f ∈ fs, safeFinding f) (a b : Int) :
    scanRun (joinFindings fs) ⟨a, b, false, false⟩ = ⟨a, b, false, false⟩ := by
  induction fs with
  | nil => rfl
  | cons f t ih =>
    cases t with
    | nil =>
      exact scanRun_sf f (h f (List.mem_cons_self f [])) a b
    | cons g t2 =>
      show scanRun (sfChars f ++ ',' :: joinFindings (g :: t2)) _ = _
      rw [scanRun_append, scanRun_sf f (h f (List.mem_cons_self f _)) a b]
      show scanRun (joinFindings (g :: t2))
        (scanStep ⟨a, b, false, false⟩ ',') = _
      have hcomma : scanStep ⟨a, b, false, false⟩ ',' = ⟨a, b, false, false⟩ :=
        rfl
      rw [hcomma]
      exact ih (fun x hx => h x (List.mem_cons_of_mem f hx))

theorem jsonStep_strV_safe (stk : List JFrame) (c : Char) (h : safeChar c) :
    jsonStep (JState.run (JMode.strV StrSub.plain) stk) c =
      JState.run (JMode.strV StrSub.plain) stk := by
  unfold jsonStep stringStep
  simp [h.1, h.2.1, h.2.2, strMode]

theorem jsonRun_safe_content (l : List Char) (h : ∀ c ∈ l, safeChar c)
    (stk : List JFrame) :
    jsonRun l (JState.run (JMode.strV StrSub.plain) stk) =
      JState.run (JMode.strV StrSub.plain) stk := by
  induction l with
  | nil => rfl
  | cons c t ih =>
    show jsonRun (c :: t) _ = _
    unfold jsonRun
    rw [List.foldl_cons, jsonStep_strV_safe stk c (h c (List.mem_cons_self c t))]
    exact ih (fun x hx => h x (List.mem_cons_of_mem c hx))

theorem jsonRun_jsO_val (stk : List JFrame) :
    jsonRun jsO (JState.run JMode.val stk) =
      JState.run (JMode.strV StrSub.plain) (JFrame.obj :: stk) := by
  rw [jsO_chars]
  simp [jsonRun, jsonStep, valStart, stringStep, strMode, isWsChar]

theorem jsonRun_jsO_arrStart (stk : List JFrame) :
    jsonRun jsO (JState.run JMode.arrStart stk) =
      JState.run (JMode.strV StrSub.plain) (JFrame.obj :: stk) := by
  rw [jsO_chars]
  simp [jsonRun, jsonStep, valStart, stringStep, strMode, isWsChar]

theorem jsonRun_jsM1 (stk : List JFrame) :
    jsonRun jsM1 (JState.run (JMode.strV StrSub.plain) (JFrame.obj :: stk)) =
      JState.run (JMode.strV StrSub.plain) (JFrame.obj :: stk) := by
  rw [jsM1_chars]
  simp [jsonRun, jsonStep, valStart, stringStep, strMode, afterStep, isWsChar]

theorem jsonRun_jsM2 (stk : List JFrame) :
    jsonRun jsM2 (JState.run (JMode.strV StrSub.plain) (JFrame.obj :: stk)) =
      JState.run (JMode.strV StrSub.plain) (JFrame.obj :: stk) := by
  rw [jsM2_chars]
  simp [jsonRun, jsonStep, valStart, stringStep, strMode, afterStep, isWsChar]

theorem jsonRun_jsE (stk : List JFrame) :
    jsonRun jsE (JState.run (JMode.strV StrSub.plain) (JFrame.obj :: stk)) =
      JState.run JMode.after stk := by
  rw [jsE_chars]
  simp [jsonRun, jsonStep, stringStep, strMode, afterStep, isWsChar]

theorem jsonRun_sf (f : Finding) (h : safeFinding f) (stk : List JFrame)
    (m : JMode) (hm : m = JMode.val ∨ m = JMode.arrStart) :
    jsonRun (sfChars f) (JState.run m stk) = JState.run JMode.after stk := by
  unfold sfChars
  rw [jsonRun_append, jsonRun_append, jsonRun_append, jsonRun_append,
    jsonRun_append, jsonRun_append]
  rcases hm with hm | hm <;> subst hm
  · rw [jsonRun_jsO_val, jsonRun_safe_content _ h.1, jsonRun_jsM1,
      jsonRun_safe_content _ h.2.1, jsonRun_jsM2,
      jsonRun_safe_content _ h.2.2, jsonRun_jsE]
  · rw [jsonRun_jsO_arrStart, jsonRun_safe_content _ h.1, jsonRun_jsM1,
      jsonRun_safe_content _ h.2.1, jsonRun_jsM2,
      jsonRun_safe_content _ h.2.2, jsonRun_jsE]

theorem jsonRun_joinFindings (fs : List Finding)
    (h : ∀ f ∈ fs, safeFinding f) (hne : fs ≠ []) (stk : List JFrame)
    (m : JMode) (hm : m = JMode.val ∨ m = JMode.arrStart) :
    jsonRun (joinFindings fs) (JState.run m (JFrame.arr :: stk)) =
      JState.run JMode.after (JFrame.arr :: stk) := by
  induction fs generalizing m with
  | nil => exact absurd rfl hne
  | cons f t ih =>
    cases t with
    | nil => exact jsonRun_sf f (h f (List.mem_cons_self f [])) _ m hm
    | cons g t2 =>
      show jsonRun (sfChars f ++ ',' :: joinFindings (g :: t2)) _ = _
      rw [jsonRun_append,
        jsonRun_sf f (h f (List.mem_cons_self f _)) _ m hm]
      show jsonRun (joinFindings (g :: t2))
        (jsonStep (JState.run JMode.after (JFrame.arr :: stk)) ',') = _
      have hcomma : jsonStep (JState.run JMode.after (JFrame.arr :: stk)) ','
          = JState.run JMode.val (JFrame.arr :: stk) := by
        simp [jsonStep, afterStep, isWsChar]
      rw [hcomma]
      exact ih (fun x hx => h x (List.mem_cons_of_mem f hx)) (by simp)
        JMode.val (Or.inl rfl)

theorem respPrefix_chars : respPrefix = ['{', '"', 'a', 'u', 'f', 'f', 'a',
    'e', 'l', 'l', 'i', 'g', 'k', 'e', 'i', 't', 'e', 'n', '"', ':', '['] :=
  rfl

theorem sfChars_split (f : Finding) :
    sfChars f = (jsO ++ f.posten.data ++ jsM1 ++ f.bewertung.data ++ jsM2 ++
      f.zitat.data) ++ jsE := by
  simp [sfChars, List.append_assoc]

theorem joinFindings_reverse (fs : List Finding) (hne : fs ≠ []) :
    ∃ t, (joinFindings fs).reverse = '}' :: t := by
  induction fs with
  | nil => exact absurd rfl hne
  | cons f t ih =>
    cases t with
    | nil =>
      refine ⟨('"' :: (jsO ++ f.posten.data ++ jsM1 ++ f.bewertung.data ++
        jsM2 ++ f.zitat.data).reverse), ?_⟩
      show (sfChars f).reverse = _
      rw [sfChars_split, List.reverse_append]
      rfl
    | cons g t2 =>
      obtain ⟨r, hr⟩ := ih (by simp)
      refine ⟨r ++ [','] ++ (sfChars f).reverse, ?_⟩
      show (sfChars f ++ ',' :: joinFindings (g :: t2)).reverse = _
      rw [List.reverse_append, List.reverse_cons, hr]
      simp

theorem locateJson_mkTrunc (fs : List Finding) (tl : List Char)
    (hne : fs ≠ []) (htl : ∀ c ∈ tl, c ≠ '}') :
    locateJson (mkTruncResponse fs tl) =
      some (respPrefix ++ joinFindings fs) := by
  obtain ⟨r, hr⟩ := joinFindings_reverse fs hne
  unfold mkTruncResponse
  simp only [locateJson]
  have hstep1 : List.dropWhile (fun c => !(c = '{' : Bool))
      (respPrefix ++ joinFindings fs ++ ',' :: tl) =
      respPrefix ++ joinFindings fs ++ ',' :: tl := by
    rw [respPrefix_chars]
    simp [List.dropWhile_cons]
  have hrev : (respPrefix ++ joinFindings fs ++ ',' :: tl).reverse =
      (tl.reverse ++ [',']) ++ ((joinFindings fs).reverse ++
        respPrefix.reverse) := by
    simp [List.reverse_cons, List.append_assoc]
  have hall : ∀ c ∈ tl.reverse ++ [','], (fun c => !(c = '}' : Bool)) c =
      true := by
    intro c hc
    rcases List.mem_append.mp hc with hc | hc
    · have := htl c (List.mem_reverse.mp hc)
      simp [this]
    · rcases List.mem_singleton.mp hc with rfl
      decide
  have hstep2 : List.dropWhile (fun c => !(c = '}' : Bool))
      ((joinFindings fs).reverse ++ respPrefix.reverse) =
      (joinFindings fs).reverse ++ respPrefix.reverse := by
    rw [hr, List.cons_append]
    simp [List.dropWhile_cons]
  rw [hstep1, hrev, dropWhile_append_of_all _ hall, hstep2,
    List.reverse_append, List.reverse_reverse, List.reverse_reverse]
  have hlen : 2 ≤ (respPrefix ++ joinFindings fs).length := by
    rw [respPrefix_chars]
    simp
  rw [if_pos hlen]

theorem stripTrailingComma_of_rbrace (l : List Char) (t : List Char)
    (h : l.reverse = '}' :: t) : stripTrailingComma l = l := by
  unfold stripTrailingComma
  rw [h]
  simp [List.dropWhile_cons, isWsChar]

theorem scanRun_respPrefix :
    scanRun respPrefix scanInit = ⟨1, 1, false, false⟩ := by
  rw [respPrefix_chars]
  simp [scanRun, scanStep, scanInit]

theorem repairJson_located (fs : List Finding) (hne : fs ≠ [])
    (hsafe : ∀ f ∈ fs, safeFinding f) :
    repairJson (respPrefix ++ joinFindings fs) =
      respPrefix ++ joinFindings fs ++ [']', '}'] := by
  obtain ⟨r, hr⟩ := joinFindings_reverse fs hne
  have hscan : scanRun (respPrefix ++ joinFindings fs) scanInit =
      ⟨1, 1, false, false⟩ := by
    rw [scanRun_append, scanRun_respPrefix,
      scanRun_joinFindings fs hsafe 1 1]
  have hrev : (respPrefix ++ joinFindings fs).reverse =
      '}' :: (r ++ respPrefix.reverse) := by
    rw [List.reverse_append, hr]
    rfl
  unfold repairJson
  rw [hscan]
  show stripTrailingComma (respPrefix ++ joinFindings fs) ++ _ ++ _ = _
  rw [stripTrailingComma_of_rbrace _ _ hrev]
  simp [List.append_assoc]

theorem jsonRun_respPrefix :
    jsonRun respPrefix (JState.run JMode.val []) =
      JState.run JMode.arrStart [JFrame.arr, JFrame.obj] := by
  rw [respPrefix_chars]
  simp [jsonRun, jsonStep, valStart, stringStep, strMode, isWsChar]

theorem jsonAccept_located (fs : List Finding) (hne : fs ≠ [])
    (hsafe : ∀ f ∈ fs, safeFinding f) :
    jsonAccept (respPrefix ++ joinFindings fs ++ [']', '}']) = true := by
  unfold jsonAccept
  rw [jsonRun_append, jsonRun_append, jsonRun_respPrefix,
    jsonRun_joinFindings fs hsafe hne [JFrame.obj] JMode.arrStart
      (Or.inr rfl)]
  have hclose : jsonRun [']', '}']
      (JState.run JMode.after [JFrame.arr, JFrame.obj]) =
      JState.run JMode.after [] := by
    simp [jsonRun, jsonStep, afterStep, isWsChar]
  rw [hclose]
  rfl

/-- **C6 (amended).**  For every model response that hit the token
ceiling and is truncated inside the findings array — at least one
complete finding written, then a comma and an unfinished trailing
element — *provided the unfinished trailing portion contains no `}`
character* (in particular when it is cut mid-string before any `}`
appears in it), the locate step cuts at the closing brace of the last
complete finding, thereby dropping the incomplete trailing element, and
the repair step appends `]}`, producing a string accepted by
`JSON.parse` as an object.  (When the truncated portion does contain a
`}` inside the unfinished string the repaired text is rejected, and
when no complete finding precedes the truncation there is no `}` at
all, so no JSON is located — see the counterexample.) -/
theorem json_repair_drops_incomplete_element (fs : List Finding)
    (tl : List Char) (hne : fs ≠ []) (hsafe : ∀ f ∈ fs, safeFinding f)
    (htl : ∀ c ∈ tl, c ≠ '}') :
    processResponse (mkTruncResponse fs tl) true =
      some (respPrefix ++ joinFindings fs ++ [']', '}']) ∧
    jsonAcceptsObject (respPrefix ++ joinFindings fs ++ [']', '}']) = true
    := by
  constructor
  · unfold processResponse
    rw [locateJson_mkTrunc fs tl hne htl]
    simp [repairJson_located fs hne hsafe]
  · unfold jsonAcceptsObject
    rw [jsonAccept_located fs hne hsafe]
    rw [respPrefix_chars]
    rfl

theorem json_repair_drops_incomplete_element_witness :
    processResponse (mkTruncResponse [⟨"Heizung", "warnung", "12 Euro"⟩]
        ("\x7b\"posten\":\"Wass".data)) true =
      some (respPrefix ++ joinFindings [⟨"Heizung", "warnung", "12 Euro"⟩] ++
        [']', '}']) ∧
    jsonAcceptsObject (respPrefix ++
        joinFindings [⟨"Heizung", "warnung", "12 Euro"⟩] ++ [']', '}']) = true
    :=
  json_repair_drops_incomplete_element [⟨"Heizung", "warnung", "12 Euro"⟩]
    ("\x7b\"posten\":\"Wass".data) (by decide) (by decide) (by decide)

theorem keine_abrechnung_refund_message_witness :
    strContainsP
      (validationErrorMsg "keine_abrechnung" (some "Es ist ein Mietvertrag.")
        "basic" true) "4,99 €" :=
  (keine_abrechnung_refund_message stripePaid "cs_6" pendingBasic
    ⟨some "keine_abrechnung", some "Es ist ein Mietvertrag.", 0⟩ 12
    ⟨[], [], [], [], []⟩ rfl rfl rfl rfl).2.2.1
